import Mathlib

/-!
Verification of the calibration routine `MRCEyeTracking.calibrate` from
`mrc_eyetracker.py` (MRC-Psychopy-Wrapper).

The routine is a single-threaded polling loop: it talks to the eye-tracking
device only through `eye_get_status`, `eye_get_calibration_point`,
`eye_set_display_parameter`, `eye_set_display_offset`, `eye_start_stream`,
`eye_start_calibrate`, `eye_stop_calibration`, `eye_stop_stream`, and to the
presentation layer through draw/flip calls and non-blocking key polls.

We embed it as a fuel-indexed interpreter over an oracle environment `Env`
supplying the result of each successive status poll, key poll and
calibration-point read, and we record the exact sequence of device calls and
UI calls in a state `S`.  Each Python `while` loop becomes one fuel-recursive
Lean function whose body mirrors the loop body statement by statement.

One genuine control-flow hazard of the source is modelled explicitly: the
flag `calibration_message` is assigned only under `if self.eye_get_status()
!= 2:` (line 268), so when that status poll returns 2 the subsequent `while
calibration_message` raises a `NameError`; the interpreter returns the
distinguished outcome `Outcome.nameError` there.
-/

namespace MRC

/-- Result of one keyboard poll round: which of the keys the routine ever
asks for were returned pressed.  Each loop iteration of the source performs
its `getKeys` calls against disjoint key lists drawn from one event buffer,
which we model as one `Keys` record per poll round. -/
structure Keys where
  q : Bool
  escape : Bool
  space : Bool
  five : Bool
deriving DecidableEq

/-- A calibration point as returned by `eye_get_calibration_point`:
`point[0]` is the point index, `point[1]`/`point[2]` the device-space pixel
coordinates (doubles in the source, embedded as rationals). -/
structure CalPoint where
  idx : ℚ
  px : ℚ
  py : ℚ
deriving DecidableEq

/-- Device control calls issued by `calibrate`, in source order. -/
inductive DevCall
  | setDisplayParameter (width height distance : Int) (pixelSize : ℚ)
  | setDisplayOffset (dx dy : Int)
  | startStream (mode : Int)
  | startCalibrate (points : Int)
  | stopCalibration
  | stopStream
deriving DecidableEq

/-- Presentation calls issued by `calibrate`: drawing one of the two text
stimuli, drawing the calibration dot at a screen position, or flipping the
window. -/
inductive UICall
  | drawText
  | drawDot (x y : ℚ)
  | flip
deriving DecidableEq

/-- Oracle environment: the value returned by the n-th `eye_get_status`
poll, the keys returned at the n-th key-poll round, and the n-th
`eye_get_calibration_point` read. -/
structure Env where
  status : Nat → Int
  keys : Nat → Keys
  point : Nat → CalPoint

/-- The configuration arguments of `calibrate` that the claims mention:
`calibration_points`, `screen_width`, `screen_height`, `distance_to_screen`,
`pixel_size`. -/
structure Cfg where
  points : Int
  width : Int
  height : Int
  distance : Int
  pixelSize : ℚ

/-- Interpreter state: poll counters plus the recorded device-call and
UI-call traces.  `streamOpen` tracks whether a started gaze stream has not
yet been stopped (set by `startStream`, cleared by `stopStream`). -/
structure S where
  pollIdx : Nat
  keyIdx : Nat
  ptIdx : Nat
  dev : List DevCall
  ui : List UICall
  streamOpen : Bool
deriving DecidableEq

/-- Initial interpreter state at entry of `calibrate`. -/
def initS : S := ⟨0, 0, 0, [], [], false⟩

/-- Record a device call at the end of the trace, updating the stream flag. -/
def logDev (s : S) (c : DevCall) : S :=
  { s with
    dev := s.dev ++ [c]
    streamOpen :=
      match c with
      | .startStream _ => true
      | .stopStream => false
      | _ => s.streamOpen }

/-- Record a presentation call at the end of the UI trace. -/
def logUI (s : S) (c : UICall) : S := { s with ui := s.ui ++ [c] }

/-- One `eye_get_status` poll. -/
def pollStatus (env : Env) (s : S) : Int × S :=
  (env.status s.pollIdx, { s with pollIdx := s.pollIdx + 1 })

/-- One key-poll round (the `getKeys` calls of one loop iteration). -/
def pollKeys (env : Env) (s : S) : Keys × S :=
  (env.keys s.keyIdx, { s with keyIdx := s.keyIdx + 1 })

/-- One `eye_get_calibration_point` read. -/
def pollPoint (env : Env) (s : S) : CalPoint × S :=
  (env.point s.ptIdx, { s with ptIdx := s.ptIdx + 1 })

/-- The abort keys polled by `getKeys(keyList = ["q","escape"], ...)`. -/
def cancelPressed (k : Keys) : Bool := k.q || k.escape

/-- Python's `int()` applied to an exact real value: truncation toward
zero (`Int.tdiv` on the reduced numerator and denominator truncates toward
zero, and `q.den` is positive). -/
def pyInt (q : ℚ) : Int := Int.tdiv q.num q.den

/-- `x_displace = int(((screen_width - vertical_groesse) / 2) - 8)` with
`vertical_groesse = screen_height` (line 261). -/
def xDisplace (w h : Int) : Int := pyInt (((w : ℚ) - (h : ℚ)) / 2 - 8)

/-- `y_displace = int(-30)` (line 262). -/
def yDisplace : Int := -30

/-- Screen position of the calibration dot (line 309):
`pos = (point[1] - tracking_groesse/2, tracking_groesse/2 - point[2])`. -/
def dotPos (g : ℚ) (p : CalPoint) : ℚ × ℚ := (p.px - g / 2, g / 2 - p.py)

/-- How the intro-prompt loop (`while calibration_message:`, lines 271-282)
terminates. -/
inductive IntroRes
  | abort
  | advance
  | fuelOut
deriving DecidableEq

/-- The intro-prompt loop, lines 271-282.  Each iteration polls the abort
keys and the space key; an abort key breaks out (setting `calibration =
False`), otherwise the instruction text is drawn and the window flipped,
and the loop ends after this iteration when space was pressed. -/
def introLoop (env : Env) : Nat → S → IntroRes × S
  | 0, s => (.fuelOut, s)
  | f + 1, s =>
    let ks := pollKeys env s
    if cancelPressed ks.1 then (.abort, ks.2)
    else
      let s2 := logUI (logUI ks.2 .drawText) .flip
      if ks.1.space then (.advance, s2) else introLoop env f s2

/-- How the point-collection loop (`while calibration_running == True:`,
lines 295-311) terminates. -/
inductive CollectRes
  | abort
  | done
  | fuelOut
deriving DecidableEq

/-- The point-collection loop, lines 295-311.  Each iteration polls the
abort keys (on abort: `stop_calibration`, `stop_stream`, break); otherwise
it polls the device status (on `2`: `stop_calibration`, clear the running
flag, `stop_stream`), reads the current calibration point, draws the dot at
the transformed position and flips; the loop ends after this iteration when
the status read `2`. -/
def collectLoop (env : Env) (g : ℚ) : Nat → S → CollectRes × S
  | 0, s => (.fuelOut, s)
  | f + 1, s =>
    let ks := pollKeys env s
    if cancelPressed ks.1 then
      (.abort, logDev (logDev ks.2 .stopCalibration) .stopStream)
    else
      let sts := pollStatus env ks.2
      let s3 :=
        if sts.1 = 2 then logDev (logDev sts.2 .stopCalibration) .stopStream
        else sts.2
      let ps := pollPoint env s3
      let s5 := logUI (logUI ps.2 (.drawDot (dotPos g ps.1).1 (dotPos g ps.1).2)) .flip
      if sts.1 = 2 then (.done, s5) else collectLoop env g f s5

/-- How the repeat-prompt loop (`while repeat_message and not
repeat_calibration:`, lines 315-328) terminates. -/
inductive RepRes
  | cancel
  | again
  | fuelOut
deriving DecidableEq

/-- One iteration body of the repeat-prompt loop, lines 316-328.  The first
`getKeys` call polls `["q","escape", "space"]` as a single group, so space
and the abort keys take the same branch: `stop_calibration`, `stop_stream`,
break.  Otherwise `5` sets the repeat flag, the prompt is drawn, the window
flipped, and the loop ends after this iteration when `5` was pressed. -/
def repeatBody (k : Keys) (s : S) : Option RepRes × S :=
  if k.q || k.escape || k.space then
    (some .cancel, logDev (logDev s .stopCalibration) .stopStream)
  else
    let s2 := logUI (logUI s .drawText) .flip
    if k.five then (some .again, s2) else (none, s2)

/-- The repeat-prompt loop, lines 315-328, driven by `repeatBody`. -/
def repeatLoop (env : Env) : Nat → S → RepRes × S
  | 0, s => (.fuelOut, s)
  | f + 1, s =>
    let ks := pollKeys env s
    let r := repeatBody ks.1 ks.2
    match r.1 with
    | some res => (res, r.2)
    | none => repeatLoop env f r.2

/-- Lines 286-290: `if self.eye_get_status() != 2 or repeat_calibration:`
issue `eye_start_stream(0)` then `eye_start_calibrate(calibration_points)`,
set the running flag and clear the repeat flag.  Returns the new state, the
running flag (`calibration_running`) and the new repeat flag. -/
def startSection (rep : Bool) (st : Int) (pts : Int) (s : S) : S × Bool × Bool :=
  if st != 2 || rep then
    (logDev (logDev s (.startStream 0)) (.startCalibrate pts), true, false)
  else
    (s, false, rep)

/-- Observable outcome of one `calibrate()` call.  The source returns no
value; the outcome records which exit path ended the routine.  The repeat
prompt cannot distinguish accept (space) from abort (q/escape) — both end
in `endedAtRepeatPrompt`.  `nameError` is the `NameError` raised at `while
calibration_message` when the line-268 status poll returned 2. -/
inductive Outcome
  | deviceNotReady
  | abortedIntro
  | abortedCollecting
  | endedAtRepeatPrompt
  | nameError
  | fuelOut
deriving DecidableEq

/-- Lines 312-328: the tail of one outer-loop iteration after the
point-collection loop has ended — the post-loop status poll (line 312), the
repeat prompt when that poll reads 2, and the dispatch on the `calibration`
flag (`calib`).  The continuation `k`, taking the repeat flag and the state,
stands for the next outer-loop iteration. -/
def postLoop (env : Env) (k : Bool → S → Outcome × S) (fuel : Nat) (calib : Bool) (s : S) :
    Outcome × S :=
  let st2 := pollStatus env s
  if st2.1 = 2 then
    let rr := repeatLoop env fuel st2.2
    match rr.1 with
    | .fuelOut => (.fuelOut, rr.2)
    | .cancel =>
      if calib then (.endedAtRepeatPrompt, rr.2) else (.abortedCollecting, rr.2)
    | .again =>
      if calib then k true rr.2 else (.abortedCollecting, rr.2)
  else
    if calib then k false st2.2
    else (.abortedCollecting, st2.2)

/-- The outer `while calibration:` loop, lines 283-328.  Each iteration:
one status poll for the `print` (line 285), one for the start condition
(line 286), the conditional stream/calibration start, the point-collection
loop when started, the post-loop status poll (line 312), and the repeat
prompt when that poll reads 2.  `calibration` becomes false on an abort in
the collection loop or on the cancel branch of the repeat prompt. -/
def outerLoop (env : Env) (cfg : Cfg) : Nat → Bool → S → Outcome × S
  | 0, _, s => (.fuelOut, s)
  | f + 1, rep, s =>
    let pr := pollStatus env s
    let sts := pollStatus env pr.2
    let st3 := startSection rep sts.1 cfg.points sts.2
    let cr :=
      if st3.2.1 then collectLoop env (cfg.height : ℚ) f st3.1
      else (CollectRes.done, st3.1)
    if cr.1 = CollectRes.fuelOut then (.fuelOut, cr.2)
    else
      let calib : Bool := cr.1 != CollectRes.abort
      let st2 := pollStatus env cr.2
      if st2.1 = 2 then
        let rr := repeatLoop env f st2.2
        match rr.1 with
        | .fuelOut => (.fuelOut, rr.2)
        | .cancel =>
          if calib then (.endedAtRepeatPrompt, rr.2) else (.abortedCollecting, rr.2)
        | .again =>
          if calib then outerLoop env cfg f true rr.2 else (.abortedCollecting, rr.2)
      else
        if calib then outerLoop env cfg f false st2.2
        else (.abortedCollecting, st2.2)

/-- The whole of `calibrate` (lines 246-330): entry status poll (line 249,
on -1 only an error line is printed), display-geometry configuration
(lines 265-266), the line-268 status poll guarding the assignment of
`calibration_message` (status 2 there leaves the flag unassigned, so the
`while` on line 271 raises `NameError`), the intro-prompt loop, and the
outer calibration loop. -/
def calibrate (env : Env) (cfg : Cfg) (fuel : Nat) : Outcome × S :=
  let sts := pollStatus env initS
  if sts.1 = -1 then (.deviceNotReady, sts.2)
  else
    let s2 := logDev sts.2 (.setDisplayParameter cfg.height cfg.height cfg.distance cfg.pixelSize)
    let s3 := logDev s2 (.setDisplayOffset (xDisplace cfg.width cfg.height) yDisplace)
    let sts1 := pollStatus env s3
    if sts1.1 = 2 then (.nameError, sts1.2)
    else
      let ir := introLoop env fuel sts1.2
      match ir.1 with
      | .fuelOut => (.fuelOut, ir.2)
      | .abort => (.abortedIntro, ir.2)
      | .advance => outerLoop env cfg fuel false ir.2

/-- The presentation calls `calibrate` may legitimately issue: text draws,
flips, and dots placed exactly at the transformed position `dotPos g p` of
some calibration point `p` read from the device. -/
def uiOK (env : Env) (g : ℚ) (c : UICall) : Prop :=
  c = UICall.drawText ∨ c = UICall.flip ∨
    ∃ i, c = UICall.drawDot (dotPos g (env.point i)).1 (dotPos g (env.point i)).2

/-- No key pressed in a poll round. -/
def noKeys : Keys := ⟨false, false, false, false⟩

/-- Only `space` pressed. -/
def spaceKeys : Keys := ⟨false, false, true, false⟩

/-- Only `q` pressed. -/
def qKeys : Keys := ⟨true, false, false, false⟩

/-- Only `escape` pressed. -/
def escKeys : Keys := ⟨false, true, false, false⟩

/-- Only `5` pressed. -/
def fiveKeys : Keys := ⟨false, false, false, true⟩

/-- The calibration point at the center of a 1080-pixel tracking region. -/
def centerPoint : CalPoint := ⟨1, 540, 540⟩

/-- The default configuration of `calibrate`: 9 points, 1920x1080 screen,
130 distance (pixel size taken as 1 for concrete runs). -/
def cfgStd : Cfg := ⟨9, 1920, 1080, 130, 1⟩

/-- A device whose status poll reports -1 (not connected). -/
def envNotConnected : Env := ⟨fun _ => -1, fun _ => noKeys, fun _ => centerPoint⟩

/-- A connected device; the user presses `q` in the first poll round (the
intro prompt). -/
def envIntroAbort : Env :=
  ⟨fun _ => 0,
   fun n => match n with | 0 => qKeys | _ => noKeys,
   fun _ => centerPoint⟩

/-- A connected device; the user presses `space` at the intro prompt and
`q` during the first point-collection round. -/
def envCollectAbort : Env :=
  ⟨fun _ => 0,
   fun n => match n with | 0 => spaceKeys | 1 => qKeys | _ => noKeys,
   fun _ => centerPoint⟩

/-- A connected device that completes one calibration point: statuses 0 for
the four entry polls, then 2; `space` at the intro prompt and at the repeat
prompt. -/
def envOnePoint : Env :=
  ⟨fun n => match n with | 0 => 0 | 1 => 0 | 2 => 0 | 3 => 0 | _ => 2,
   fun n => match n with | 0 => spaceKeys | 2 => spaceKeys | _ => noKeys,
   fun _ => centerPoint⟩

/-- A device that already reports status 2 (Calibrated) at entry. -/
def envAlreadyCalibrated : Env := ⟨fun _ => 2, fun _ => noKeys, fun _ => centerPoint⟩

/-- A device whose successive status polls yield -1, 0, 0, 2 (the scripted
sequence of the spec's `CollectingPoint` test), with no key ever pressed. -/
def envCollectSeq : Env :=
  ⟨fun n => match n with | 0 => -1 | 1 => 0 | 2 => 0 | 3 => 2 | _ => 2,
   fun _ => noKeys, fun _ => centerPoint⟩

/-! ### Basic state-transition lemmas -/

@[simp] lemma logDev_dev (s : S) (c : DevCall) : (logDev s c).dev = s.dev ++ [c] := rfl

@[simp] lemma logDev_ui (s : S) (c : DevCall) : (logDev s c).ui = s.ui := rfl

@[simp] lemma logUI_dev (s : S) (c : UICall) : (logUI s c).dev = s.dev := rfl

@[simp] lemma logUI_ui (s : S) (c : UICall) : (logUI s c).ui = s.ui ++ [c] := rfl

@[simp] lemma logUI_streamOpen (s : S) (c : UICall) : (logUI s c).streamOpen = s.streamOpen := rfl

@[simp] lemma logDev_stopStream_streamOpen (s : S) :
    (logDev s .stopStream).streamOpen = false := rfl

@[simp] lemma logDev_stopCalibration_streamOpen (s : S) :
    (logDev s .stopCalibration).streamOpen = s.streamOpen := rfl

@[simp] lemma logDev_startStream_streamOpen (s : S) (m : Int) :
    (logDev s (.startStream m)).streamOpen = true := rfl

@[simp] lemma logDev_startCalibrate_streamOpen (s : S) (n : Int) :
    (logDev s (.startCalibrate n)).streamOpen = s.streamOpen := rfl

@[simp] lemma logDev_setDisplayParameter_streamOpen (s : S) (a b c : Int) (p : ℚ) :
    (logDev s (.setDisplayParameter a b c p)).streamOpen = s.streamOpen := rfl

@[simp] lemma logDev_setDisplayOffset_streamOpen (s : S) (a b : Int) :
    (logDev s (.setDisplayOffset a b)).streamOpen = s.streamOpen := rfl

@[simp] lemma pollStatus_snd (env : Env) (s : S) :
    (pollStatus env s).2 = { s with pollIdx := s.pollIdx + 1 } := rfl

@[simp] lemma pollStatus_fst (env : Env) (s : S) :
    (pollStatus env s).1 = env.status s.pollIdx := rfl

@[simp] lemma pollKeys_snd (env : Env) (s : S) :
    (pollKeys env s).2 = { s with keyIdx := s.keyIdx + 1 } := rfl

@[simp] lemma pollKeys_fst (env : Env) (s : S) :
    (pollKeys env s).1 = env.keys s.keyIdx := rfl

@[simp] lemma pollPoint_snd (env : Env) (s : S) :
    (pollPoint env s).2 = { s with ptIdx := s.ptIdx + 1 } := rfl

@[simp] lemma pollPoint_fst (env : Env) (s : S) :
    (pollPoint env s).1 = env.point s.ptIdx := rfl

/-! ### Intro-prompt loop lemmas -/

/-- The intro-prompt loop issues no device calls at all. -/
lemma introLoop_dev (env : Env) : ∀ f s, (introLoop env f s).2.dev = s.dev := by
  intro f
  induction f with
  | zero => intro s; rfl
  | succ f ih =>
    intro s
    simp only [introLoop]
    split
    · simp
    · split
      · simp
      · rw [ih]; simp

/-- The intro-prompt loop leaves the stream flag unchanged. -/
lemma introLoop_streamOpen (env : Env) :
    ∀ f s, (introLoop env f s).2.streamOpen = s.streamOpen := by
  intro f
  induction f with
  | zero => intro s; rfl
  | succ f ih =>
    intro s
    simp only [introLoop]
    split
    · simp
    · split
      · simp
      · rw [ih]; simp

/-- If no abort key is ever pressed, the intro loop never takes the abort
branch, and it can only terminate on a round where space was pressed. -/
lemma introLoop_noAbort (env : Env) (hq : ∀ i, (env.keys i).q = false)
    (he : ∀ i, (env.keys i).escape = false) :
    ∀ f s, (introLoop env f s).1 ≠ IntroRes.abort ∧
      ((introLoop env f s).1 = IntroRes.advance → ∃ i, (env.keys i).space = true) := by
  intro f
  induction f with
  | zero => intro s; exact ⟨by simp [introLoop], by simp [introLoop]⟩
  | succ f ih =>
    intro s
    simp only [introLoop]
    have hc : cancelPressed (pollKeys env s).1 = false := by
      simp [cancelPressed, hq, he]
    rw [hc]
    simp only [Bool.false_eq_true, if_false]
    by_cases hs : (pollKeys env s).1.space = true
    · rw [if_pos hs]
      exact ⟨by simp, fun _ => ⟨s.keyIdx, by simpa using hs⟩⟩
    · rw [if_neg hs]
      exact ih _

/-! ### Point-collection loop lemmas -/

/-- Whenever the point-collection loop terminates by itself (abort or
status 2) rather than by fuel exhaustion, its last device call was
`stopStream`, so the stream flag is cleared. -/
lemma collectLoop_streamClosed (env : Env) (g : ℚ) :
    ∀ f s, (collectLoop env g f s).1 ≠ CollectRes.fuelOut →
      (collectLoop env g f s).2.streamOpen = false := by
  intro f
  induction f with
  | zero => intro s h; exact absurd rfl h
  | succ f ih =>
    intro s
    by_cases hc : cancelPressed (env.keys s.keyIdx) = true
    · simp [collectLoop, hc]
    · by_cases hst : env.status s.pollIdx = 2
      · simp [collectLoop, hc, hst]
      · simp only [collectLoop, pollKeys_fst, pollKeys_snd, pollStatus_fst, pollStatus_snd,
          pollPoint_fst, pollPoint_snd, hc, hst, if_false, Bool.false_eq_true]
        intro h
        exact ih _ h

/-- The abort branch of the point-collection loop records both
`stop_calibration` and `stop_stream`. -/
lemma collectLoop_abort_stops (env : Env) (g : ℚ) :
    ∀ f s, (collectLoop env g f s).1 = CollectRes.abort →
      DevCall.stopCalibration ∈ (collectLoop env g f s).2.dev ∧
      DevCall.stopStream ∈ (collectLoop env g f s).2.dev := by
  intro f
  induction f with
  | zero => intro s h; simp [collectLoop] at h
  | succ f ih =>
    intro s
    by_cases hc : cancelPressed (env.keys s.keyIdx) = true
    · simp [collectLoop, hc]
    · by_cases hst : env.status s.pollIdx = 2
      · simp [collectLoop, hc, hst]
      · simp only [collectLoop, pollKeys_fst, pollKeys_snd, pollStatus_fst, pollStatus_snd,
          pollPoint_fst, pollPoint_snd, hc, hst, if_false, Bool.false_eq_true]
        intro h
        exact ih _ h

/-- The point-collection loop only extends the device-call trace. -/
lemma collectLoop_devExt (env : Env) (g : ℚ) :
    ∀ f s, ∃ r, (collectLoop env g f s).2.dev = s.dev ++ r := by
  intro f
  induction f with
  | zero => intro s; exact ⟨[], by simp [collectLoop]⟩
  | succ f ih =>
    intro s
    by_cases hc : cancelPressed (env.keys s.keyIdx) = true
    · refine ⟨[DevCall.stopCalibration, DevCall.stopStream], ?_⟩
      simp [collectLoop, hc]
    · by_cases hst : env.status s.pollIdx = 2
      · refine ⟨[DevCall.stopCalibration, DevCall.stopStream], ?_⟩
        simp [collectLoop, hc, hst]
      · simp only [collectLoop, pollKeys_fst, pollKeys_snd, pollStatus_fst, pollStatus_snd,
          pollPoint_fst, pollPoint_snd, hc, hst, if_false, Bool.false_eq_true]
        obtain ⟨r, hr⟩ := ih _
        refine ⟨r, ?_⟩
        rw [hr]
        simp

/-! ### Repeat-prompt loop lemmas -/

/-- The repeat-prompt loop preserves a closed stream flag: its only device
calls are the `stop_calibration`/`stop_stream` pair of the cancel branch. -/
lemma repeatLoop_streamClosed (env : Env) :
    ∀ f s, s.streamOpen = false → (repeatLoop env f s).2.streamOpen = false := by
  intro f
  induction f with
  | zero => intro s h; exact h
  | succ f ih =>
    intro s h
    by_cases hk : ((env.keys s.keyIdx).q || (env.keys s.keyIdx).escape ||
        (env.keys s.keyIdx).space) = true
    · simp [repeatLoop, repeatBody, hk]
    · by_cases h5 : (env.keys s.keyIdx).five = true
      · simp [repeatLoop, repeatBody, hk, h5, h]
      · simp only [repeatLoop, repeatBody, pollKeys_fst, pollKeys_snd, hk, h5, if_false,
          Bool.false_eq_true]
        exact ih _ (by simpa using h)

/-- The cancel branch of the repeat prompt records both `stop_calibration`
and `stop_stream`. -/
lemma repeatLoop_cancel_stops (env : Env) :
    ∀ f s, (repeatLoop env f s).1 = RepRes.cancel →
      DevCall.stopCalibration ∈ (repeatLoop env f s).2.dev ∧
      DevCall.stopStream ∈ (repeatLoop env f s).2.dev := by
  intro f
  induction f with
  | zero => intro s h; simp [repeatLoop] at h
  | succ f ih =>
    intro s
    by_cases hk : ((env.keys s.keyIdx).q || (env.keys s.keyIdx).escape ||
        (env.keys s.keyIdx).space) = true
    · simp [repeatLoop, repeatBody, hk]
    · by_cases h5 : (env.keys s.keyIdx).five = true
      · simp [repeatLoop, repeatBody, hk, h5]
      · simp only [repeatLoop, repeatBody, pollKeys_fst, pollKeys_snd, hk, h5, if_false,
          Bool.false_eq_true]
        intro h
        exact ih _ h

/-- The repeat-prompt loop only extends the device-call trace. -/
lemma repeatLoop_devExt (env : Env) :
    ∀ f s, ∃ r, (repeatLoop env f s).2.dev = s.dev ++ r := by
  intro f
  induction f with
  | zero => intro s; exact ⟨[], by simp [repeatLoop]⟩
  | succ f ih =>
    intro s
    by_cases hk : ((env.keys s.keyIdx).q || (env.keys s.keyIdx).escape ||
        (env.keys s.keyIdx).space) = true
    · refine ⟨[DevCall.stopCalibration, DevCall.stopStream], ?_⟩
      simp [repeatLoop, repeatBody, hk]
    · by_cases h5 : (env.keys s.keyIdx).five = true
      · refine ⟨[], ?_⟩
        simp [repeatLoop, repeatBody, hk, h5]
      · simp only [repeatLoop, repeatBody, pollKeys_fst, pollKeys_snd, hk, h5, if_false,
          Bool.false_eq_true]
        obtain ⟨r, hr⟩ := ih _
        refine ⟨r, ?_⟩
        rw [hr]
        simp

/-! ### Start-section and outer-loop lemmas -/

/-- The start section only extends the device-call trace, and leaves a
closed stream closed exactly when it does not start one; when it starts the
stream the collection loop runs. -/
lemma startSection_dev (rep : Bool) (st : Int) (pts : Int) (s : S) :
    ∃ r, (startSection rep st pts s).1.dev = s.dev ++ r := by
  unfold startSection
  by_cases h : (st != 2 || rep) = true
  · exact ⟨[DevCall.startStream 0, DevCall.startCalibrate pts], by simp [h]⟩
  · exact ⟨[], by simp [h]⟩

/-- When the start section does not start the stream, the state is
untouched. -/
lemma startSection_not_started (rep : Bool) (st : Int) (pts : Int) (s : S) :
    (startSection rep st pts s).2.1 = false → (startSection rep st pts s).1 = s := by
  unfold startSection
  by_cases h : (st != 2 || rep) = true
  · simp [h]
  · simp [h]

/-- Transitivity of trace extension. -/
lemma devExt_trans {s t u : S} (h1 : ∃ r, t.dev = s.dev ++ r)
    (h2 : ∃ r, u.dev = t.dev ++ r) : ∃ r, u.dev = s.dev ++ r := by
  obtain ⟨r1, hr1⟩ := h1
  obtain ⟨r2, hr2⟩ := h2
  exact ⟨r1 ++ r2, by rw [hr2, hr1, List.append_assoc]⟩

/-- Trace extension preserves membership of recorded calls. -/
lemma mem_of_devExt {c : DevCall} {s t : S} (h : ∃ r, t.dev = s.dev ++ r)
    (hc : c ∈ s.dev) : c ∈ t.dev := by
  obtain ⟨r, hr⟩ := h
  rw [hr]
  exact List.mem_append_left _ hc

/-- One unfolding of the outer loop, phrased through `postLoop`. -/
lemma outerLoop_succ (env : Env) (cfg : Cfg) (f : Nat) (rep : Bool) (s : S) :
    outerLoop env cfg (f + 1) rep s =
      (let st3 := startSection rep (env.status (s.pollIdx + 1)) cfg.points
        { s with pollIdx := s.pollIdx + 1 + 1 };
      let cr :=
        if st3.2.1 then collectLoop env (cfg.height : ℚ) f st3.1
        else (CollectRes.done, st3.1);
      if cr.1 = CollectRes.fuelOut then (Outcome.fuelOut, cr.2)
      else postLoop env (outerLoop env cfg f) f (cr.1 != CollectRes.abort) cr.2) := rfl

/-- `postLoop` only extends the device-call trace, provided its
continuation does. -/
lemma postLoop_devExt (env : Env) (k : Bool → S → Outcome × S) (f : Nat) (calib : Bool) (s : S)
    (hk : ∀ b t, ∃ r, (k b t).2.dev = t.dev ++ r) :
    ∃ r, (postLoop env k f calib s).2.dev = s.dev ++ r := by
  simp only [postLoop, pollStatus_fst, pollStatus_snd]
  by_cases hst : env.status s.pollIdx = 2
  · rw [if_pos hst]
    rcases hrr : repeatLoop env f { s with pollIdx := s.pollIdx + 1 } with ⟨rres, s2⟩
    have hr0 : ∃ r, s2.dev = s.dev ++ r := by
      have := repeatLoop_devExt env f { s with pollIdx := s.pollIdx + 1 }
      rw [hrr] at this
      simpa using this
    cases rres with
    | fuelOut => simpa using hr0
    | cancel => cases calib <;> simpa using hr0
    | again =>
      cases calib
      · simpa using hr0
      · simpa using devExt_trans hr0 (hk true s2)
  · rw [if_neg hst]
    cases calib
    · exact ⟨[], by simp⟩
    · simpa using devExt_trans (⟨[], by simp⟩ : ∃ r,
        (S.mk (s.pollIdx + 1) s.keyIdx s.ptIdx s.dev s.ui s.streamOpen).dev = s.dev ++ r)
        (hk false _)

/-- `postLoop` ends with a closed stream whenever it ends at all, provided
the stream is closed at entry and the continuation preserves this. -/
lemma postLoop_streamClosed (env : Env) (k : Bool → S → Outcome × S) (f : Nat) (calib : Bool)
    (s : S)
    (hk : ∀ b t, t.streamOpen = false → (k b t).1 ≠ Outcome.fuelOut →
      (k b t).2.streamOpen = false)
    (hs : s.streamOpen = false) :
    (postLoop env k f calib s).1 ≠ Outcome.fuelOut →
      (postLoop env k f calib s).2.streamOpen = false := by
  simp only [postLoop, pollStatus_fst, pollStatus_snd]
  by_cases hst : env.status s.pollIdx = 2
  · rw [if_pos hst]
    rcases hrr : repeatLoop env f { s with pollIdx := s.pollIdx + 1 } with ⟨rres, s2⟩
    have hs2 : s2.streamOpen = false := by
      have := repeatLoop_streamClosed env f { s with pollIdx := s.pollIdx + 1 } (by simpa using hs)
      rw [hrr] at this
      exact this
    cases rres with
    | fuelOut => simp
    | cancel => cases calib <;> simp [hs2]
    | again =>
      cases calib
      · simp [hs2]
      · simpa using hk true s2 hs2
  · rw [if_neg hst]
    cases calib
    · simp [hs]
    · exact hk false _ (by simpa using hs)

/-- Whenever `postLoop` ends in `abortedCollecting` or
`endedAtRepeatPrompt`, both stop calls appear in the trace — given that an
entry with the `calibration` flag already false carries them (the
collection loop recorded them on its abort), and that the continuation has
the same property. -/
lemma postLoop_stops (env : Env) (k : Bool → S → Outcome × S) (f : Nat) (calib : Bool) (s : S)
    (hk : ∀ b t, ((k b t).1 = Outcome.abortedCollecting ∨
        (k b t).1 = Outcome.endedAtRepeatPrompt) →
      DevCall.stopCalibration ∈ (k b t).2.dev ∧ DevCall.stopStream ∈ (k b t).2.dev)
    (hcal : calib = false →
      DevCall.stopCalibration ∈ s.dev ∧ DevCall.stopStream ∈ s.dev) :
    ((postLoop env k f calib s).1 = Outcome.abortedCollecting ∨
        (postLoop env k f calib s).1 = Outcome.endedAtRepeatPrompt) →
      DevCall.stopCalibration ∈ (postLoop env k f calib s).2.dev ∧
      DevCall.stopStream ∈ (postLoop env k f calib s).2.dev := by
  simp only [postLoop, pollStatus_fst, pollStatus_snd]
  by_cases hst : env.status s.pollIdx = 2
  · rw [if_pos hst]
    rcases hrr : repeatLoop env f { s with pollIdx := s.pollIdx + 1 } with ⟨rres, s2⟩
    have hr0 : ∃ r, s2.dev = s.dev ++ r := by
      have := repeatLoop_devExt env f { s with pollIdx := s.pollIdx + 1 }
      rw [hrr] at this
      simpa using this
    cases rres with
    | fuelOut => simp
    | cancel =>
      have hstops := repeatLoop_cancel_stops env f { s with pollIdx := s.pollIdx + 1 }
      rw [hrr] at hstops
      intro _
      cases calib <;> simpa using hstops rfl
    | again =>
      cases calib
      · have hm := hcal rfl
        exact fun _ => ⟨mem_of_devExt hr0 hm.1, mem_of_devExt hr0 hm.2⟩
      · simpa using hk true s2
  · rw [if_neg hst]
    cases calib
    · have hm := hcal rfl
      exact fun _ => ⟨by simpa using hm.1, by simpa using hm.2⟩
    · simpa using hk false _

/-! ### UI-trace characterization -/

/-- Every UI call added by the intro loop is a text draw or a flip. -/
lemma introLoop_ui (env : Env) (g : ℚ) :
    ∀ f s c, c ∈ (introLoop env f s).2.ui → c ∈ s.ui ∨ uiOK env g c := by
  intro f
  induction f with
  | zero => intro s c hc; exact Or.inl hc
  | succ f ih =>
    intro s c
    by_cases hc : cancelPressed (env.keys s.keyIdx) = true
    · simp only [introLoop, pollKeys_fst, pollKeys_snd, hc, if_true]
      exact Or.inl
    · by_cases hsp : (env.keys s.keyIdx).space = true
      · simp only [introLoop, pollKeys_fst, pollKeys_snd, hc, hsp, if_true, if_false,
          Bool.false_eq_true]
        intro hm
        simp only [logUI_ui, List.append_assoc, List.mem_append] at hm
        rcases hm with hm | hm
        · exact Or.inl hm
        · simp only [List.mem_append, List.mem_singleton] at hm
          rcases hm with hm | hm <;> exact Or.inr (by simp [uiOK, hm])
      · simp only [introLoop, pollKeys_fst, pollKeys_snd, hc, hsp, if_false, Bool.false_eq_true]
        intro hm
        rcases ih _ _ hm with hm2 | hm2
        · simp only [logUI_ui, List.append_assoc, List.mem_append] at hm2
          rcases hm2 with hm2 | hm2
          · exact Or.inl hm2
          · simp only [List.mem_append, List.mem_singleton] at hm2
            rcases hm2 with hm2 | hm2 <;> exact Or.inr (by simp [uiOK, hm2])
        · exact Or.inr hm2

/-- Every UI call added by the repeat-prompt loop is a text draw or a
flip. -/
lemma repeatLoop_ui (env : Env) (g : ℚ) :
    ∀ f s c, c ∈ (repeatLoop env f s).2.ui → c ∈ s.ui ∨ uiOK env g c := by
  intro f
  induction f with
  | zero => intro s c hc; exact Or.inl hc
  | succ f ih =>
    intro s c
    by_cases hk : ((env.keys s.keyIdx).q || (env.keys s.keyIdx).escape ||
        (env.keys s.keyIdx).space) = true
    · simp only [repeatLoop, repeatBody, pollKeys_fst, pollKeys_snd, hk, if_true]
      exact fun hm => Or.inl (by simpa using hm)
    · by_cases h5 : (env.keys s.keyIdx).five = true
      · simp only [repeatLoop, repeatBody, pollKeys_fst, pollKeys_snd, hk, h5, if_true,
          if_false, Bool.false_eq_true]
        intro hm
        simp only [logUI_ui, List.append_assoc, List.mem_append] at hm
        rcases hm with hm | hm
        · exact Or.inl hm
        · simp only [List.mem_append, List.mem_singleton] at hm
          rcases hm with hm | hm <;> exact Or.inr (by simp [uiOK, hm])
      · simp only [repeatLoop, repeatBody, pollKeys_fst, pollKeys_snd, hk, h5, if_false,
          Bool.false_eq_true]
        intro hm
        rcases ih _ _ hm with hm2 | hm2
        · simp only [logUI_ui, List.append_assoc, List.mem_append] at hm2
          rcases hm2 with hm2 | hm2
          · exact Or.inl hm2
          · simp only [List.mem_append, List.mem_singleton] at hm2
            rcases hm2 with hm2 | hm2 <;> exact Or.inr (by simp [uiOK, hm2])
        · exact Or.inr hm2

/-- Every UI call added by the point-collection loop is a flip or a dot
drawn at the transformed position of a polled calibration point. -/
lemma collectLoop_ui (env : Env) (g : ℚ) :
    ∀ f s c, c ∈ (collectLoop env g f s).2.ui → c ∈ s.ui ∨ uiOK env g c := by
  intro f
  induction f with
  | zero => intro s c hc; exact Or.inl hc
  | succ f ih =>
    intro s c
    by_cases hc : cancelPressed (env.keys s.keyIdx) = true
    · simp only [collectLoop, pollKeys_fst, pollKeys_snd, hc, if_true]
      exact fun hm => Or.inl (by simpa using hm)
    · by_cases hst : env.status s.pollIdx = 2
      · simp only [collectLoop, pollKeys_fst, pollKeys_snd, pollStatus_fst, pollStatus_snd,
          pollPoint_fst, pollPoint_snd, hc, hst, if_true, if_false, Bool.false_eq_true]
        intro hm
        simp only [logUI_ui, logDev_ui, List.append_assoc, List.mem_append] at hm
        rcases hm with hm | hm
        · exact Or.inl hm
        · simp only [List.mem_append, List.mem_singleton] at hm
          rcases hm with hm | hm
          · exact Or.inr (Or.inr (Or.inr ⟨_, hm⟩))
          · exact Or.inr (by simp [uiOK, hm])
      · simp only [collectLoop, pollKeys_fst, pollKeys_snd, pollStatus_fst, pollStatus_snd,
          pollPoint_fst, pollPoint_snd, hc, hst, if_false, Bool.false_eq_true]
        intro hm
        rcases ih _ _ hm with hm2 | hm2
        · simp only [logUI_ui, logDev_ui, List.append_assoc, List.mem_append] at hm2
          rcases hm2 with hm2 | hm2
          · exact Or.inl hm2
          · simp only [List.mem_append, List.mem_singleton] at hm2
            rcases hm2 with hm2 | hm2
            · exact Or.inr (Or.inr (Or.inr ⟨_, hm2⟩))
            · exact Or.inr (by simp [uiOK, hm2])
        · exact Or.inr hm2

/-- Every UI call added by `postLoop` is legitimate, provided the
continuation only adds legitimate calls. -/
lemma postLoop_ui (env : Env) (g : ℚ) (k : Bool → S → Outcome × S) (f : Nat) (calib : Bool)
    (s : S)
    (hk : ∀ b t c, c ∈ (k b t).2.ui → c ∈ t.ui ∨ uiOK env g c) :
    ∀ c, c ∈ (postLoop env k f calib s).2.ui → c ∈ s.ui ∨ uiOK env g c := by
  intro c
  simp only [postLoop, pollStatus_fst, pollStatus_snd]
  by_cases hst : env.status s.pollIdx = 2
  · rw [if_pos hst]
    rcases hrr : repeatLoop env f { s with pollIdx := s.pollIdx + 1 } with ⟨rres, s2⟩
    have hr0 : ∀ c, c ∈ s2.ui → c ∈ s.ui ∨ uiOK env g c := by
      intro c hm
      have := repeatLoop_ui env g f { s with pollIdx := s.pollIdx + 1 } c (by rw [hrr]; exact hm)
      simpa using this
    cases rres with
    | fuelOut => exact fun hm => hr0 c hm
    | cancel => cases calib <;> exact fun hm => hr0 c (by simpa using hm)
    | again =>
      cases calib
      · exact fun hm => hr0 c (by simpa using hm)
      · intro hm
        rcases hk true s2 c (by simpa using hm) with hm2 | hm2
        · exact hr0 c hm2
        · exact Or.inr hm2
  · rw [if_neg hst]
    cases calib
    · exact fun hm => Or.inl (by simpa using hm)
    · intro hm
      rcases hk false _ c (by simpa using hm) with hm2 | hm2
      · exact Or.inl (by simpa using hm2)
      · exact Or.inr hm2

/-- The outer loop only extends the device-call trace. -/
lemma outerLoop_devExt (env : Env) (cfg : Cfg) :
    ∀ f (rep : Bool) (s : S), ∃ r, (outerLoop env cfg f rep s).2.dev = s.dev ++ r := by
  intro f
  induction f with
  | zero => intro rep s; exact ⟨[], by simp [outerLoop]⟩
  | succ f ih =>
    intro rep s
    rw [outerLoop_succ]
    by_cases hb : (env.status (s.pollIdx + 1) != 2 || rep) = true
    · simp only [startSection, if_pos hb]
      rcases hcr : collectLoop env (cfg.height : ℚ) f
        (logDev (logDev { s with pollIdx := s.pollIdx + 1 + 1 } (DevCall.startStream 0))
          (DevCall.startCalibrate cfg.points)) with ⟨cres, s1⟩
      have hext : ∃ r, s1.dev = s.dev ++ r := by
        have h1 := collectLoop_devExt env (cfg.height : ℚ) f
          (logDev (logDev { s with pollIdx := s.pollIdx + 1 + 1 } (DevCall.startStream 0))
            (DevCall.startCalibrate cfg.points))
        rw [hcr] at h1
        obtain ⟨r, hr⟩ := h1
        exact ⟨[DevCall.startStream 0, DevCall.startCalibrate cfg.points] ++ r, by
          rw [hr]; simp⟩
      cases cres with
      | fuelOut => simpa using hext
      | abort =>
        have hp := postLoop_devExt env (outerLoop env cfg f) f
          (CollectRes.abort != CollectRes.abort) s1 (fun b t => ih b t)
        simpa using devExt_trans hext hp
      | done =>
        have hp := postLoop_devExt env (outerLoop env cfg f) f
          (CollectRes.done != CollectRes.abort) s1 (fun b t => ih b t)
        simpa using devExt_trans hext hp
    · simp only [startSection, if_neg hb]
      have hp := postLoop_devExt env (outerLoop env cfg f) f
        (CollectRes.done != CollectRes.abort) { s with pollIdx := s.pollIdx + 1 + 1 }
        (fun b t => ih b t)
      simpa using hp

/-- When the outer loop ends by itself the stream flag is closed, provided
it was closed at entry. -/
lemma outerLoop_streamClosed (env : Env) (cfg : Cfg) :
    ∀ f (rep : Bool) (s : S), s.streamOpen = false →
      (outerLoop env cfg f rep s).1 ≠ Outcome.fuelOut →
      (outerLoop env cfg f rep s).2.streamOpen = false := by
  intro f
  induction f with
  | zero => intro rep s _ h; exact absurd rfl h
  | succ f ih =>
    intro rep s hs
    rw [outerLoop_succ]
    by_cases hb : (env.status (s.pollIdx + 1) != 2 || rep) = true
    · simp only [startSection, if_pos hb]
      rcases hcr : collectLoop env (cfg.height : ℚ) f
        (logDev (logDev { s with pollIdx := s.pollIdx + 1 + 1 } (DevCall.startStream 0))
          (DevCall.startCalibrate cfg.points)) with ⟨cres, s1⟩
      cases cres with
      | fuelOut => simp
      | abort =>
        have hs1 : s1.streamOpen = false := by
          have h1 := collectLoop_streamClosed env (cfg.height : ℚ) f
            (logDev (logDev { s with pollIdx := s.pollIdx + 1 + 1 } (DevCall.startStream 0))
              (DevCall.startCalibrate cfg.points))
          rw [hcr] at h1
          exact h1 (by simp)
        simpa using postLoop_streamClosed env (outerLoop env cfg f) f
          (CollectRes.abort != CollectRes.abort) s1 (fun b t => ih b t) hs1
      | done =>
        have hs1 : s1.streamOpen = false := by
          have h1 := collectLoop_streamClosed env (cfg.height : ℚ) f
            (logDev (logDev { s with pollIdx := s.pollIdx + 1 + 1 } (DevCall.startStream 0))
              (DevCall.startCalibrate cfg.points))
          rw [hcr] at h1
          exact h1 (by simp)
        simpa using postLoop_streamClosed env (outerLoop env cfg f) f
          (CollectRes.done != CollectRes.abort) s1 (fun b t => ih b t) hs1
    · simp only [startSection, if_neg hb]
      simpa using postLoop_streamClosed env (outerLoop env cfg f) f
        (CollectRes.done != CollectRes.abort) { s with pollIdx := s.pollIdx + 1 + 1 }
        (fun b t => ih b t) (by simpa using hs)

/-- Whenever the outer loop ends in `abortedCollecting` or
`endedAtRepeatPrompt`, both `stop_calibration` and `stop_stream` appear in
the device-call trace. -/
lemma outerLoop_stops (env : Env) (cfg : Cfg) :
    ∀ f (rep : Bool) (s : S),
      ((outerLoop env cfg f rep s).1 = Outcome.abortedCollecting ∨
        (outerLoop env cfg f rep s).1 = Outcome.endedAtRepeatPrompt) →
      DevCall.stopCalibration ∈ (outerLoop env cfg f rep s).2.dev ∧
      DevCall.stopStream ∈ (outerLoop env cfg f rep s).2.dev := by
  intro f
  induction f with
  | zero => intro rep s h; simp [outerLoop] at h
  | succ f ih =>
    intro rep s
    rw [outerLoop_succ]
    by_cases hb : (env.status (s.pollIdx + 1) != 2 || rep) = true
    · simp only [startSection, if_pos hb]
      rcases hcr : collectLoop env (cfg.height : ℚ) f
        (logDev (logDev { s with pollIdx := s.pollIdx + 1 + 1 } (DevCall.startStream 0))
          (DevCall.startCalibrate cfg.points)) with ⟨cres, s1⟩
      cases cres with
      | fuelOut => simp
      | abort =>
        have hstops : DevCall.stopCalibration ∈ s1.dev ∧ DevCall.stopStream ∈ s1.dev := by
          have h1 := collectLoop_abort_stops env (cfg.height : ℚ) f
            (logDev (logDev { s with pollIdx := s.pollIdx + 1 + 1 } (DevCall.startStream 0))
              (DevCall.startCalibrate cfg.points))
          rw [hcr] at h1
          exact h1 rfl
        simpa using postLoop_stops env (outerLoop env cfg f) f
          (CollectRes.abort != CollectRes.abort) s1 (fun b t => ih b t) (fun _ => hstops)
      | done =>
        simpa using postLoop_stops env (outerLoop env cfg f) f
          (CollectRes.done != CollectRes.abort) s1 (fun b t => ih b t)
          (fun h => absurd h (by decide))
    · simp only [startSection, if_neg hb]
      simpa using postLoop_stops env (outerLoop env cfg f) f
        (CollectRes.done != CollectRes.abort) { s with pollIdx := s.pollIdx + 1 + 1 }
        (fun b t => ih b t) (fun h => absurd h (by decide))

/-- With no abort key and no space key ever returned, the intro loop never
terminates by itself. -/
lemma introLoop_noExit (env : Env) (hq : ∀ i, (env.keys i).q = false)
    (he : ∀ i, (env.keys i).escape = false) (hs : ∀ i, (env.keys i).space = false) :
    ∀ f s, (introLoop env f s).1 = IntroRes.fuelOut := by
  intro f
  induction f with
  | zero => intro s; rfl
  | succ f ih =>
    intro s
    have hc : cancelPressed (env.keys s.keyIdx) = false := by
      simp [cancelPressed, hq, he]
    simp only [introLoop, pollKeys_fst, pollKeys_snd, hc, hs, if_false, Bool.false_eq_true]
    exact ih _

/-- `pyInt` is the identity on integers. -/
lemma pyInt_intCast (n : Int) : pyInt (n : ℚ) = n := by
  simp only [pyInt, Rat.num_intCast, Rat.den_intCast]
  cases n <;> simp [Int.tdiv, Nat.div_one, Int.negSucc_eq]

/-- `postLoop` never produces the entry-failure outcomes, provided the
continuation does not. -/
lemma postLoop_outcomes (env : Env) (k : Bool → S → Outcome × S) (f : Nat) (calib : Bool)
    (s : S)
    (hk : ∀ b t, (k b t).1 ≠ Outcome.abortedIntro ∧ (k b t).1 ≠ Outcome.deviceNotReady ∧
      (k b t).1 ≠ Outcome.nameError) :
    (postLoop env k f calib s).1 ≠ Outcome.abortedIntro ∧
    (postLoop env k f calib s).1 ≠ Outcome.deviceNotReady ∧
    (postLoop env k f calib s).1 ≠ Outcome.nameError := by
  simp only [postLoop, pollStatus_fst, pollStatus_snd]
  by_cases hst : env.status s.pollIdx = 2
  · rw [if_pos hst]
    rcases hrr : repeatLoop env f { s with pollIdx := s.pollIdx + 1 } with ⟨rres, s2⟩
    cases rres with
    | fuelOut => exact ⟨by simp, by simp, by simp⟩
    | cancel => cases calib <;> exact ⟨by simp, by simp, by simp⟩
    | again =>
      cases calib
      · exact ⟨by simp, by simp, by simp⟩
      · simpa using hk true s2
  · rw [if_neg hst]
    cases calib
    · exact ⟨by simp, by simp, by simp⟩
    · simpa using hk false _

/-- The outer loop never produces the entry-failure outcomes. -/
lemma outerLoop_outcomes (env : Env) (cfg : Cfg) :
    ∀ f (rep : Bool) (s : S),
      (outerLoop env cfg f rep s).1 ≠ Outcome.abortedIntro ∧
      (outerLoop env cfg f rep s).1 ≠ Outcome.deviceNotReady ∧
      (outerLoop env cfg f rep s).1 ≠ Outcome.nameError := by
  intro f
  induction f with
  | zero => intro rep s; exact ⟨by simp [outerLoop], by simp [outerLoop], by simp [outerLoop]⟩
  | succ f ih =>
    intro rep s
    rw [outerLoop_succ]
    by_cases hb : (env.status (s.pollIdx + 1) != 2 || rep) = true
    · simp only [startSection, if_pos hb]
      rcases hcr : collectLoop env (cfg.height : ℚ) f
        (logDev (logDev { s with pollIdx := s.pollIdx + 1 + 1 } (DevCall.startStream 0))
          (DevCall.startCalibrate cfg.points)) with ⟨cres, s1⟩
      cases cres with
      | fuelOut => exact ⟨by simp, by simp, by simp⟩
      | abort =>
        simpa using postLoop_outcomes env (outerLoop env cfg f) f
          (CollectRes.abort != CollectRes.abort) s1 (fun b t => ih b t)
      | done =>
        simpa using postLoop_outcomes env (outerLoop env cfg f) f
          (CollectRes.done != CollectRes.abort) s1 (fun b t => ih b t)
    · simp only [startSection, if_neg hb]
      simpa using postLoop_outcomes env (outerLoop env cfg f) f
        (CollectRes.done != CollectRes.abort) { s with pollIdx := s.pollIdx + 1 + 1 }
        (fun b t => ih b t)

/-- Every UI call added by the outer loop is legitimate. -/
lemma outerLoop_ui (env : Env) (cfg : Cfg) :
    ∀ f (rep : Bool) (s : S) c, c ∈ (outerLoop env cfg f rep s).2.ui →
      c ∈ s.ui ∨ uiOK env (cfg.height : ℚ) c := by
  intro f
  induction f with
  | zero => intro rep s c hc; exact Or.inl (by simpa [outerLoop] using hc)
  | succ f ih =>
    intro rep s c
    rw [outerLoop_succ]
    by_cases hb : (env.status (s.pollIdx + 1) != 2 || rep) = true
    · simp only [startSection, if_pos hb]
      rcases hcr : collectLoop env (cfg.height : ℚ) f
        (logDev (logDev { s with pollIdx := s.pollIdx + 1 + 1 } (DevCall.startStream 0))
          (DevCall.startCalibrate cfg.points)) with ⟨cres, s1⟩
      have hcui : ∀ c, c ∈ s1.ui → c ∈ s.ui ∨ uiOK env (cfg.height : ℚ) c := by
        intro c hm
        have := collectLoop_ui env (cfg.height : ℚ) f
          (logDev (logDev { s with pollIdx := s.pollIdx + 1 + 1 } (DevCall.startStream 0))
            (DevCall.startCalibrate cfg.points)) c (by rw [hcr]; exact hm)
        simpa using this
      cases cres with
      | fuelOut => exact fun hm => hcui c (by simpa using hm)
      | abort =>
        intro hm
        rcases postLoop_ui env (cfg.height : ℚ) (outerLoop env cfg f) f
            (CollectRes.abort != CollectRes.abort) s1 (fun b t c hm2 => ih b t c hm2) c
            (by simpa using hm) with h2 | h2
        · exact hcui c h2
        · exact Or.inr h2
      | done =>
        intro hm
        rcases postLoop_ui env (cfg.height : ℚ) (outerLoop env cfg f) f
            (CollectRes.done != CollectRes.abort) s1 (fun b t c hm2 => ih b t c hm2) c
            (by simpa using hm) with h2 | h2
        · exact hcui c h2
        · exact Or.inr h2
    · simp only [startSection, if_neg hb]
      intro hm
      rcases postLoop_ui env (cfg.height : ℚ) (outerLoop env cfg f) f
          (CollectRes.done != CollectRes.abort) { s with pollIdx := s.pollIdx + 1 + 1 }
          (fun b t c hm2 => ih b t c hm2) c (by simpa using hm) with h2 | h2
      · exact Or.inl (by simpa using h2)
      · exact Or.inr h2

/-- Every UI call of a `calibrate` run is a text draw, a flip, or a dot at
the transformed position of a polled calibration point. -/
lemma calibrate_ui (env : Env) (cfg : Cfg) (fuel : Nat) :
    ∀ c, c ∈ (calibrate env cfg fuel).2.ui → uiOK env (cfg.height : ℚ) c := by
  intro c
  simp only [calibrate]
  by_cases h0 : (pollStatus env initS).1 = -1
  · rw [if_pos h0]
    intro hm
    simp [pollStatus, initS] at hm
  · rw [if_neg h0]
    by_cases h1 : (pollStatus env (logDev (logDev (pollStatus env initS).2
        (DevCall.setDisplayParameter cfg.height cfg.height cfg.distance cfg.pixelSize))
        (DevCall.setDisplayOffset (xDisplace cfg.width cfg.height) yDisplace))).1 = 2
    · rw [if_pos h1]
      intro hm
      simp [pollStatus, initS, logDev] at hm
    · rw [if_neg h1]
      rcases hir : introLoop env fuel (pollStatus env (logDev (logDev (pollStatus env initS).2
          (DevCall.setDisplayParameter cfg.height cfg.height cfg.distance cfg.pixelSize))
          (DevCall.setDisplayOffset (xDisplace cfg.width cfg.height) yDisplace))).2
        with ⟨ires, s5⟩
      have hui5 : ∀ c, c ∈ s5.ui → uiOK env (cfg.height : ℚ) c := by
        intro c hm
        have h2 := introLoop_ui env (cfg.height : ℚ) fuel (pollStatus env (logDev (logDev
          (pollStatus env initS).2
          (DevCall.setDisplayParameter cfg.height cfg.height cfg.distance cfg.pixelSize))
          (DevCall.setDisplayOffset (xDisplace cfg.width cfg.height) yDisplace))).2 c
          (by rw [hir]; exact hm)
        rcases h2 with h2 | h2
        · exfalso
          revert h2
          simp [pollStatus, initS, logDev]
        · exact h2
      cases ires with
      | fuelOut => exact fun hm => hui5 c hm
      | abort => exact fun hm => hui5 c hm
      | advance =>
        intro hm
        rcases outerLoop_ui env cfg fuel false s5 c hm with h2 | h2
        · exact hui5 c h2
        · exact h2

/-! ### Claim theorems -/

/-- C1: every `calibrate` execution that returns leaves the stream flag
closed — each `eye_start_stream` was followed by an `eye_stop_stream`
before return — and on the entry-failure and intro-abort paths no
`eye_start_stream` call was ever made at all. -/
theorem calibrate_never_leaks_stream (env : Env) (cfg : Cfg) (fuel : Nat) :
    ((calibrate env cfg fuel).1 ≠ Outcome.fuelOut →
      (calibrate env cfg fuel).2.streamOpen = false) ∧
    ((calibrate env cfg fuel).1 = Outcome.abortedIntro ∨
        (calibrate env cfg fuel).1 = Outcome.deviceNotReady →
      ∀ m, DevCall.startStream m ∉ (calibrate env cfg fuel).2.dev) := by
  simp only [calibrate]
  by_cases h0 : (pollStatus env initS).1 = -1
  · rw [if_pos h0]
    refine ⟨fun _ => rfl, fun _ m hm => ?_⟩
    simp [pollStatus, initS] at hm
  · rw [if_neg h0]
    by_cases h1 : (pollStatus env (logDev (logDev (pollStatus env initS).2
        (DevCall.setDisplayParameter cfg.height cfg.height cfg.distance cfg.pixelSize))
        (DevCall.setDisplayOffset (xDisplace cfg.width cfg.height) yDisplace))).1 = 2
    · rw [if_pos h1]
      refine ⟨fun _ => rfl, ?_⟩
      rintro (h | h) <;> simp at h
    · rw [if_neg h1]
      rcases hir : introLoop env fuel (pollStatus env (logDev (logDev (pollStatus env initS).2
          (DevCall.setDisplayParameter cfg.height cfg.height cfg.distance cfg.pixelSize))
          (DevCall.setDisplayOffset (xDisplace cfg.width cfg.height) yDisplace))).2
        with ⟨ires, s5⟩
      have hso5 : s5.streamOpen = false := by
        have h2 := introLoop_streamOpen env fuel (pollStatus env (logDev (logDev
          (pollStatus env initS).2
          (DevCall.setDisplayParameter cfg.height cfg.height cfg.distance cfg.pixelSize))
          (DevCall.setDisplayOffset (xDisplace cfg.width cfg.height) yDisplace))).2
        rw [hir] at h2
        simpa [pollStatus, initS, logDev] using h2
      have hdev5 : s5.dev =
          [DevCall.setDisplayParameter cfg.height cfg.height cfg.distance cfg.pixelSize,
           DevCall.setDisplayOffset (xDisplace cfg.width cfg.height) yDisplace] := by
        have h2 := introLoop_dev env fuel (pollStatus env (logDev (logDev
          (pollStatus env initS).2
          (DevCall.setDisplayParameter cfg.height cfg.height cfg.distance cfg.pixelSize))
          (DevCall.setDisplayOffset (xDisplace cfg.width cfg.height) yDisplace))).2
        rw [hir] at h2
        simpa [pollStatus, initS, logDev] using h2
      cases ires with
      | fuelOut =>
        refine ⟨fun h => absurd rfl h, ?_⟩
        rintro (h | h) <;> simp at h
      | abort =>
        refine ⟨fun _ => hso5, fun _ m hm => ?_⟩
        rw [hdev5] at hm
        simp at hm
      | advance =>
        refine ⟨outerLoop_streamClosed env cfg fuel false s5 hso5, ?_⟩
        rintro (h | h)
        · exact absurd h (outerLoop_outcomes env cfg fuel false s5).1
        · exact absurd h (outerLoop_outcomes env cfg fuel false s5).2.1

/-- C1 witness: a run aborted with `q` at the intro prompt returns with the
stream closed and without any `eye_start_stream` call. -/
theorem calibrate_never_leaks_stream_witness :
    (calibrate envIntroAbort cfgStd 5).2.streamOpen = false ∧
    DevCall.startStream 0 ∉ (calibrate envIntroAbort cfgStd 5).2.dev := by
  have h := calibrate_never_leaks_stream envIntroAbort cfgStd 5
  exact ⟨h.1 (by decide), h.2 (Or.inl (by decide)) 0⟩

/-- C2: when the entry status poll returns -1, `calibrate` ends immediately
as `deviceNotReady` with an empty device-call trace (no display
configuration, no stream or calibration start) and an empty UI trace (zero
draw and flip calls). -/
theorem calibrate_deviceNotReady_immediate (env : Env) (cfg : Cfg) (fuel : Nat)
    (h : env.status 0 = -1) :
    (calibrate env cfg fuel).1 = Outcome.deviceNotReady ∧
    (calibrate env cfg fuel).2.dev = [] ∧
    (calibrate env cfg fuel).2.ui = [] := by
  have h0 : (pollStatus env initS).1 = -1 := by simpa [pollStatus, initS] using h
  simp only [calibrate]
  rw [if_pos h0]
  exact ⟨rfl, rfl, rfl⟩

/-- C2 witness: the not-connected device. -/
theorem calibrate_deviceNotReady_immediate_witness :
    envNotConnected.status 0 = -1 ∧
    (calibrate envNotConnected cfgStd 5).1 = Outcome.deviceNotReady ∧
    (calibrate envNotConnected cfgStd 5).2.dev = [] ∧
    (calibrate envNotConnected cfgStd 5).2.ui = [] := by
  have h := calibrate_deviceNotReady_immediate envNotConnected cfgStd 5 (by decide)
  exact ⟨by decide, h.1, h.2.1, h.2.2⟩

/-- C3 counterexample: aborting with `q` at the intro prompt (a state
before Done) returns without ever invoking `eye_stop_calibration` or
`eye_stop_stream`, contradicting the claim that both are invoked on every
abort path. -/
theorem intro_abort_without_stop_calls_cex :
    (calibrate envIntroAbort cfgStd 5).1 = Outcome.abortedIntro ∧
    DevCall.stopCalibration ∉ (calibrate envIntroAbort cfgStd 5).2.dev ∧
    DevCall.stopStream ∉ (calibrate envIntroAbort cfgStd 5).2.dev := by
  exact ⟨by decide, by decide, by decide⟩

/-- C3 (amended): pressing `q`/`escape` before Done always terminates the
routine; on every abort path on which calibration had started — an abort
during point collection, or any exit of the repeat prompt (where
`q`/`escape` is indistinguishable from `space`) — both
`eye_stop_calibration` and `eye_stop_stream` are invoked before return,
while an abort at the intro prompt returns with no stream ever started and
no stop calls. -/
theorem calibrate_abort_stop_discipline (env : Env) (cfg : Cfg) (fuel : Nat) :
    ((calibrate env cfg fuel).1 = Outcome.abortedCollecting ∨
        (calibrate env cfg fuel).1 = Outcome.endedAtRepeatPrompt →
      DevCall.stopCalibration ∈ (calibrate env cfg fuel).2.dev ∧
      DevCall.stopStream ∈ (calibrate env cfg fuel).2.dev) ∧
    ((calibrate env cfg fuel).1 = Outcome.abortedIntro →
      (∀ m, DevCall.startStream m ∉ (calibrate env cfg fuel).2.dev) ∧
      DevCall.stopStream ∉ (calibrate env cfg fuel).2.dev) := by
  simp only [calibrate]
  by_cases h0 : (pollStatus env initS).1 = -1
  · rw [if_pos h0]
    constructor
    · rintro (h | h) <;> simp at h
    · rintro h
      simp at h
  · rw [if_neg h0]
    by_cases h1 : (pollStatus env (logDev (logDev (pollStatus env initS).2
        (DevCall.setDisplayParameter cfg.height cfg.height cfg.distance cfg.pixelSize))
        (DevCall.setDisplayOffset (xDisplace cfg.width cfg.height) yDisplace))).1 = 2
    · rw [if_pos h1]
      constructor
      · rintro (h | h) <;> simp at h
      · rintro h
        simp at h
    · rw [if_neg h1]
      rcases hir : introLoop env fuel (pollStatus env (logDev (logDev (pollStatus env initS).2
          (DevCall.setDisplayParameter cfg.height cfg.height cfg.distance cfg.pixelSize))
          (DevCall.setDisplayOffset (xDisplace cfg.width cfg.height) yDisplace))).2
        with ⟨ires, s5⟩
      have hdev5 : s5.dev =
          [DevCall.setDisplayParameter cfg.height cfg.height cfg.distance cfg.pixelSize,
           DevCall.setDisplayOffset (xDisplace cfg.width cfg.height) yDisplace] := by
        have h2 := introLoop_dev env fuel (pollStatus env (logDev (logDev
          (pollStatus env initS).2
          (DevCall.setDisplayParameter cfg.height cfg.height cfg.distance cfg.pixelSize))
          (DevCall.setDisplayOffset (xDisplace cfg.width cfg.height) yDisplace))).2
        rw [hir] at h2
        simpa [pollStatus, initS, logDev] using h2
      cases ires with
      | fuelOut =>
        constructor
        · rintro (h | h) <;> simp at h
        · rintro h
          simp at h
      | abort =>
        constructor
        · rintro (h | h) <;> simp at h
        · refine fun _ => ⟨fun m hm => ?_, fun hm => ?_⟩ <;>
            (rw [hdev5] at hm; simp at hm)
      | advance =>
        constructor
        · exact outerLoop_stops env cfg fuel false s5
        · intro h
          exact absurd h (outerLoop_outcomes env cfg fuel false s5).1

/-- C3 witness: an abort with `q` during point collection ends in
`abortedCollecting` with both stop calls recorded. -/
theorem calibrate_abort_stop_discipline_witness :
    (calibrate envCollectAbort cfgStd 6).1 = Outcome.abortedCollecting ∧
    DevCall.stopCalibration ∈ (calibrate envCollectAbort cfgStd 6).2.dev ∧
    DevCall.stopStream ∈ (calibrate envCollectAbort cfgStd 6).2.dev := by
  have h := calibrate_abort_stop_discipline envCollectAbort cfgStd 6
  have hout : (calibrate envCollectAbort cfgStd 6).1 = Outcome.abortedCollecting := by decide
  exact ⟨hout, (h.1 (Or.inl hout)).1, (h.1 (Or.inl hout)).2⟩

/-- C4: every dot drawn by `calibrate` lies at the transformed screen
position `(px - size/2, size/2 - py)` of a calibration point `(i, px, py)`
read from the device, where `size` is the screen height; and with
screenHeight 1080 the device point (1, 540, 540) maps to offset (0, 0). -/
theorem calibrate_dot_transform (env : Env) (cfg : Cfg) (fuel : Nat) :
    (∀ x y, UICall.drawDot x y ∈ (calibrate env cfg fuel).2.ui →
      ∃ i, x = (dotPos (cfg.height : ℚ) (env.point i)).1 ∧
        y = (dotPos (cfg.height : ℚ) (env.point i)).2) ∧
    dotPos ((1080 : Int) : ℚ) centerPoint = (0, 0) := by
  constructor
  · intro x y hm
    rcases calibrate_ui env cfg fuel _ hm with h | h | ⟨i, h⟩
    · exact absurd h (by simp)
    · exact absurd h (by simp)
    · injection h with h1 h2
      exact ⟨i, h1, h2⟩
  · norm_num [dotPos, centerPoint, Prod.ext_iff]

/-- C4 witness: the one-point run draws its dot exactly at the transformed
position of the polled center point, which is the window-center offset. -/
theorem calibrate_dot_transform_witness :
    (∃ i, (dotPos ((1080 : Int) : ℚ) centerPoint).1 =
        (dotPos ((1080 : Int) : ℚ) (envOnePoint.point i)).1 ∧
      (dotPos ((1080 : Int) : ℚ) centerPoint).2 =
        (dotPos ((1080 : Int) : ℚ) (envOnePoint.point i)).2) ∧
    dotPos ((1080 : Int) : ℚ) centerPoint = (0, 0) := by
  have h := calibrate_dot_transform envOnePoint cfgStd 5
  refine ⟨?_, h.2⟩
  have htr : (calibrate envOnePoint cfgStd 5).2.ui =
      [UICall.drawText, UICall.flip,
       UICall.drawDot (dotPos ((1080 : Int) : ℚ) centerPoint).1
         (dotPos ((1080 : Int) : ℚ) centerPoint).2,
       UICall.flip] := rfl
  exact h.1 _ _ (by rw [htr]; simp)

/-- C5: the start section (lines 286-290) on an entry with the repeat flag
set issues `eye_start_stream(0)` then `eye_start_calibrate(points)` and
clears the flag even when the status reads 2; with no repeat requested and
status 2 it issues nothing and touches nothing; and pressing `5` in the
repeat prompt produces the repeat result that re-enters with the flag
set. -/
theorem repeat_flag_forces_restart (s : S) (pts : Int) :
    (startSection true 2 pts s).1.dev =
      s.dev ++ [DevCall.startStream 0, DevCall.startCalibrate pts] ∧
    (startSection true 2 pts s).2 = (true, false) ∧
    (startSection false 2 pts s).1 = s ∧
    (startSection false 2 pts s).2 = (false, false) ∧
    (repeatBody fiveKeys s).1 = some RepRes.again := by
  refine ⟨?_, rfl, rfl, rfl, rfl⟩
  simp [startSection, logDev]

/-- C6 (code bug): a connected device whose line-268 status poll returns 2
(already Calibrated) leaves `calibration_message` unassigned, so the
line-271 `while calibration_message` raises `NameError`: the model run ends
in the `nameError` outcome right after the two display-configuration calls,
before any prompt is drawn. -/
theorem calibrate_status2_nameError :
    (calibrate envAlreadyCalibrated cfgStd 5).1 = Outcome.nameError ∧
    (calibrate envAlreadyCalibrated cfgStd 5).2.dev.length = 2 ∧
    (calibrate envAlreadyCalibrated cfgStd 5).2.ui = [] := by
  exact ⟨rfl, rfl, rfl⟩

/-- C7: during the intro prompt, when no abort key is ever returned, the
loop never aborts, it can advance only when some round returned `space`,
and with no `space` either it never terminates — no other key and no device
condition exits the intro loop. -/
theorem intro_exits_only_via_space (env : Env) (fuel : Nat) (s : S)
    (hq : ∀ i, (env.keys i).q = false) (he : ∀ i, (env.keys i).escape = false) :
    (introLoop env fuel s).1 ≠ IntroRes.abort ∧
    ((introLoop env fuel s).1 = IntroRes.advance → ∃ i, (env.keys i).space = true) ∧
    ((∀ i, (env.keys i).space = false) → (introLoop env fuel s).1 = IntroRes.fuelOut) := by
  refine ⟨(introLoop_noAbort env hq he fuel s).1, (introLoop_noAbort env hq he fuel s).2, ?_⟩
  intro hs
  exact introLoop_noExit env hq he hs fuel s

/-- C7 witness: with `space` pressed in the first round and no abort key
ever, the intro loop advances. -/
theorem intro_exits_only_via_space_witness :
    (introLoop envOnePoint 2 initS).1 = IntroRes.advance ∧
    (introLoop envOnePoint 2 initS).1 ≠ IntroRes.abort ∧
    ∃ i, (envOnePoint.keys i).space = true := by
  have hq : ∀ i, (envOnePoint.keys i).q = false := by
    intro i
    rcases i with _ | _ | _ | i <;> rfl
  have he : ∀ i, (envOnePoint.keys i).escape = false := by
    intro i
    rcases i with _ | _ | _ | i <;> rfl
  have h := intro_exits_only_via_space envOnePoint 2 initS hq he
  exact ⟨by decide, h.1, h.2.1 (by decide)⟩

/-- C8: on every connected invocation the first two device calls are
`eye_set_display_parameter(screenHeight, screenHeight, distance,
pixelSize)` and `eye_set_display_offset(int((screenWidth -
screenHeight)/2 - 8), -30)`, preceding every stream or calibration start;
and for an even width-height difference `w - h = 2k` the x-offset is
exactly `k - 8`, i.e. `(w - h)/2 - 8`. -/
theorem calibrate_display_config (env : Env) (cfg : Cfg) (fuel : Nat)
    (h : env.status 0 ≠ -1) :
    (calibrate env cfg fuel).2.dev.take 2 =
      [DevCall.setDisplayParameter cfg.height cfg.height cfg.distance cfg.pixelSize,
       DevCall.setDisplayOffset (xDisplace cfg.width cfg.height) yDisplace] ∧
    (∀ k : Int, cfg.width - cfg.height = 2 * k → xDisplace cfg.width cfg.height = k - 8) := by
  constructor
  · simp only [calibrate]
    have h0 : ¬(pollStatus env initS).1 = -1 := by simpa [pollStatus, initS] using h
    rw [if_neg h0]
    by_cases h1 : (pollStatus env (logDev (logDev (pollStatus env initS).2
        (DevCall.setDisplayParameter cfg.height cfg.height cfg.distance cfg.pixelSize))
        (DevCall.setDisplayOffset (xDisplace cfg.width cfg.height) yDisplace))).1 = 2
    · rw [if_pos h1]
      simp [pollStatus, initS, logDev]
    · rw [if_neg h1]
      rcases hir : introLoop env fuel (pollStatus env (logDev (logDev (pollStatus env initS).2
          (DevCall.setDisplayParameter cfg.height cfg.height cfg.distance cfg.pixelSize))
          (DevCall.setDisplayOffset (xDisplace cfg.width cfg.height) yDisplace))).2
        with ⟨ires, s5⟩
      have hdev5 : s5.dev =
          [DevCall.setDisplayParameter cfg.height cfg.height cfg.distance cfg.pixelSize,
           DevCall.setDisplayOffset (xDisplace cfg.width cfg.height) yDisplace] := by
        have h2 := introLoop_dev env fuel (pollStatus env (logDev (logDev
          (pollStatus env initS).2
          (DevCall.setDisplayParameter cfg.height cfg.height cfg.distance cfg.pixelSize))
          (DevCall.setDisplayOffset (xDisplace cfg.width cfg.height) yDisplace))).2
        rw [hir] at h2
        simpa [pollStatus, initS, logDev] using h2
      cases ires with
      | fuelOut => rw [hdev5]; rfl
      | abort => rw [hdev5]; rfl
      | advance =>
        obtain ⟨r, hr⟩ := outerLoop_devExt env cfg fuel false s5
        rw [hr, hdev5]
        rfl
  · intro k hk
    unfold xDisplace
    have hq : ((cfg.width : ℚ) - (cfg.height : ℚ)) / 2 - 8 = ((k - 8 : Int) : ℚ) := by
      have h2 : ((cfg.width : ℚ)) - (cfg.height : ℚ) = ((2 * k : Int) : ℚ) := by
        rw [← hk]
        push_cast
        ring
      rw [h2]
      push_cast
      ring
    rw [hq, pyInt_intCast]

/-- C8 witness: with the default 1920x1080 geometry the first two device
calls are the display configuration, and the x-offset is 412 = (1920 -
1080)/2 - 8. -/
theorem calibrate_display_config_witness :
    (calibrate envOnePoint cfgStd 5).2.dev.take 2 =
      [DevCall.setDisplayParameter cfgStd.height cfgStd.height cfgStd.distance cfgStd.pixelSize,
       DevCall.setDisplayOffset (xDisplace cfgStd.width cfgStd.height) yDisplace] ∧
    xDisplace cfgStd.width cfgStd.height = 412 := by
  have h := calibrate_display_config envOnePoint cfgStd 5 (by decide)
  refine ⟨h.1, ?_⟩
  have h2 := h.2 420 (by decide)
  rw [h2]
  decide

/-- C9: in the repeat prompt, `space` is polled in the same key group as
`q` and `escape` (line 316), so all three produce the identical step: both
stop calls recorded, identical resulting state, no distinction between an
accepted and an aborted outcome. -/
theorem repeatPrompt_space_q_identical (s : S) :
    repeatBody spaceKeys s = repeatBody qKeys s ∧
    repeatBody spaceKeys s = repeatBody escKeys s ∧
    repeatBody spaceKeys s =
      (some RepRes.cancel, logDev (logDev s DevCall.stopCalibration) DevCall.stopStream) := by
  exact ⟨rfl, rfl, rfl⟩

/-- C10: with scripted statuses [-1, 0, 0, 2] across the four successive
polls of the point-collection loop and no abort key, the loop exits to the
repeat-prompt check exactly once (result `done`), recording the
`stop_calibration`/`stop_stream` pair exactly once — on the poll that
returned 2 — not once per poll. -/
theorem collect_status_sequence_single_transition :
    (collectLoop envCollectSeq 1080 10 initS).1 = CollectRes.done ∧
    (collectLoop envCollectSeq 1080 10 initS).2.dev =
      [DevCall.stopCalibration, DevCall.stopStream] ∧
    (collectLoop envCollectSeq 1080 10 initS).2.pollIdx = 4 := by
  exact ⟨rfl, rfl, rfl⟩

end MRC
